import Mathlib

/-!
Shallow embedding of `streamlit/cookie_support.py` (AirGrid/external-analytics).

The script loads a CSV of rows (date, device_type, browser_name, traffic,
cookies_supported), computes pandas groupby/pivot aggregations, and fits a
trend line with `scipy.stats.linregress`.

Modelling choices:
* a CSV row is `Record`, the loaded table is `Dataset` (a `List Record`);
* numeric float results are `FVal`: a finite rational, `pinf`/`ninf`
  (IEEE infinities), or `nan`.  Pandas/numpy float arithmetic on these
  values (division by zero, NaN propagation, skip-NaN sums) is modelled
  by the `FVal` operations below; real arithmetic is exact over `ℚ`;
* pandas `groupby(k).sum()` sorts the distinct keys and sums the numeric
  columns per key; non-numeric columns are dropped;
* `scipy.stats.linregress` is modelled after its source: it raises on
  empty input and on more than one identical x value, and on a single
  point its covariance terms are zero so the slope is the float 0/0, NaN.
-/

/-- A calendar date as stored in the `date` column (parsed `YYYY-MM-DD`). -/
structure Date where
  year : ℕ
  month : ℕ
  day : ℕ
deriving DecidableEq

/-- Leap-year test of the proleptic Gregorian calendar (as in Python `datetime`). -/
def isLeap (y : ℕ) : Bool := (y % 4 = 0 ∧ y % 100 ≠ 0) ∨ y % 400 = 0

/-- Month lengths of a non-leap year. -/
def daysInMonths : List ℕ := [31, 28, 31, 30, 31, 30, 31, 31, 30, 31, 30, 31]

/-- Days in the year strictly before month `m` (Python `datetime._days_before_month`). -/
def daysBeforeMonth (y m : ℕ) : ℕ :=
  (daysInMonths.take (m - 1)).sum + (if 2 < m ∧ isLeap y then 1 else 0)

/-- Days strictly before January 1 of year `y` (Python `datetime._days_before_year`). -/
def daysBeforeYear (y : ℕ) : ℕ :=
  365 * (y - 1) + (y - 1) / 4 - (y - 1) / 100 + (y - 1) / 400

/-- `datetime.date.toordinal`: day 1 is January 1 of year 1.  This is the
integer encoding of dates used as the x axis of the trend fit. -/
def toordinal (t : Date) : ℕ :=
  daysBeforeYear t.year + daysBeforeMonth t.year t.month + t.day

/-- The ordinal of a date as a rational (the float `i.toordinal()` seen by scipy). -/
def ordQ (t : Date) : ℚ := (toordinal t : ℚ)

/-- One row of the telemetry CSV. -/
structure Record where
  date : Date
  device_type : String
  browser_name : String
  traffic : ℕ
  cookies_supported : ℕ
deriving DecidableEq

/-- The loaded table, in CSV row order. -/
abbrev Dataset : Type := List Record

/-- A pandas float value: finite, an infinity, or NaN.  Missing pivot cells
are NaN in pandas, so they are also represented by `nan`. -/
inductive FVal where
  | fin : ℚ → FVal
  | pinf : FVal
  | ninf : FVal
  | nan : FVal
deriving DecidableEq

/-- IEEE-style addition on pandas float values (NaN propagates, `inf + (-inf)` is NaN). -/
def FVal.add : FVal → FVal → FVal
  | .nan, _ => .nan
  | _, .nan => .nan
  | .fin a, .fin b => .fin (a + b)
  | .fin _, .pinf => .pinf
  | .pinf, .fin _ => .pinf
  | .fin _, .ninf => .ninf
  | .ninf, .fin _ => .ninf
  | .pinf, .pinf => .pinf
  | .ninf, .ninf => .ninf
  | .pinf, .ninf => .nan
  | .ninf, .pinf => .nan

/-- IEEE-style multiplication on pandas float values (`0 * inf` is NaN). -/
def FVal.mul : FVal → FVal → FVal
  | .nan, _ => .nan
  | _, .nan => .nan
  | .fin a, .fin b => .fin (a * b)
  | .fin a, .pinf => if a = 0 then .nan else if 0 < a then .pinf else .ninf
  | .pinf, .fin a => if a = 0 then .nan else if 0 < a then .pinf else .ninf
  | .fin a, .ninf => if a = 0 then .nan else if 0 < a then .ninf else .pinf
  | .ninf, .fin a => if a = 0 then .nan else if 0 < a then .ninf else .pinf
  | .pinf, .pinf => .pinf
  | .pinf, .ninf => .ninf
  | .ninf, .pinf => .ninf
  | .ninf, .ninf => .pinf

/-- IEEE-style division on pandas float values: finite `a / 0` is NaN when
`a = 0` and a signed infinity otherwise (pandas integer-column division
follows numpy float semantics; signed zero is not modelled). -/
def FVal.div : FVal → FVal → FVal
  | .nan, _ => .nan
  | _, .nan => .nan
  | .fin a, .fin b =>
      if b = 0 then (if a = 0 then .nan else if 0 < a then .pinf else .ninf)
      else .fin (a / b)
  | .fin _, .pinf => .fin 0
  | .fin _, .ninf => .fin 0
  | .pinf, .fin b => if 0 ≤ b then .pinf else .ninf
  | .ninf, .fin b => if 0 ≤ b then .ninf else .pinf
  | .pinf, .pinf => .nan
  | .pinf, .ninf => .nan
  | .ninf, .pinf => .nan
  | .ninf, .ninf => .nan

/-- The finite part of a float value, used by skip-NaN reductions. -/
def FVal.toFin : FVal → Option ℚ
  | .fin q => some q
  | _ => none

/-- Pandas `DataFrame.sum(axis=1)` over float cells: NaN cells are skipped
(`skipna=True`), an all-NaN row sums to 0. -/
def nansum (l : List FVal) : FVal := .fin ((l.filterMap FVal.toFin).sum)

/-- Summed `traffic` column of a list of rows. -/
def sumTraffic (l : List Record) : ℕ := (l.map Record.traffic).sum

/-- Summed `cookies_supported` column of a list of rows. -/
def sumCookies (l : List Record) : ℕ := (l.map Record.cookies_supported).sum

/-- The rows of `l` whose `date` equals `t`. -/
def rowsAt (l : List Record) (t : Date) : List Record :=
  l.filter fun r => r.date = t

/-- The rows of `l` at date `t` with device type `c` (one pivot cell's rows). -/
def rowsAtDev (l : List Record) (t : Date) (c : String) : List Record :=
  (rowsAt l t).filter fun r => r.device_type = c

/-- The rows of `l` at date `t` with browser name `b` (one pivot cell's rows). -/
def rowsAtBrowser (l : List Record) (t : Date) (b : String) : List Record :=
  (rowsAt l t).filter fun r => r.browser_name = b

/-- Chronological order on dates, the order pandas sorts datetime group keys in. -/
def dateLe (a b : Date) : Prop := toordinal a ≤ toordinal b

instance : DecidableRel dateLe := fun a b => Nat.decLe (toordinal a) (toordinal b)

/-- The sorted distinct dates of a table: the index produced by grouping or
pivoting on `date`. -/
def dateIndex (l : List Record) : List Date :=
  List.insertionSort dateLe (l.map Record.date).dedup

/-- One row of the `by_day` (and `slice_dice_df`) frame after
`groupby('date').sum()` and the `cookie_support_pct` assignment. -/
structure DayEntry where
  date : Date
  traffic : ℕ
  cookies_supported : ℕ
  cookie_support_pct : FVal
deriving DecidableEq

/-- `df.groupby('date').sum().reset_index()` followed by
`df['cookie_support_pct'] = (df.cookies_supported / df.traffic) * 100`
(lines 30-31 for the whole table, lines 196-197 for the filtered one).
Non-numeric columns are dropped by the pandas sum. -/
def by_day (df : Dataset) : List DayEntry :=
  (dateIndex df).map fun t =>
    { date := t
      traffic := sumTraffic (rowsAt df t)
      cookies_supported := sumCookies (rowsAt df t)
      cookie_support_pct :=
        ((FVal.fin (sumCookies (rowsAt df t))).div
          (FVal.fin (sumTraffic (rowsAt df t)))).mul (FVal.fin 100) }

/-- The hard-coded `top_devices = ['desktop', 'mobile', 'tablet']` list. -/
def top_devices : List String := ["desktop", "mobile", "tablet"]

/-- `df[df.device_type.isin(['desktop', 'mobile', 'tablet'])]`: the
device-restricted table used by the device pivots (lines 33 and 39). -/
def restrictDevices (df : Dataset) : Dataset :=
  df.filter fun r => r.device_type ∈ top_devices

/-- The device-type columns of the `by_device` pivot: the device types that
occur in the restricted table, in the (alphabetical) order of `top_devices`. -/
def deviceCols (df : Dataset) : List String :=
  top_devices.filter fun c => (restrictDevices df).any fun r => r.device_type = c

/-- Whether the `by_device` pivot has a column for device type `c`. -/
def hasDeviceCol (df : Dataset) (c : String) : Bool :=
  (restrictDevices df).any fun r => r.device_type = c

/-- One cell of the `by_device` pivot (`pivot_table(..., values='traffic',
index=['date'], columns=['device_type'], aggfunc=np.sum)`, line 34): the
summed traffic at that date and device type, NaN when no row matches. -/
def deviceCell (df : Dataset) (t : Date) (c : String) : FVal :=
  if (rowsAtDev (restrictDevices df) t c).isEmpty then .nan
  else .fin (sumTraffic (rowsAtDev (restrictDevices df) t c))

/-- `by_device['total'] = by_device.sum(axis=1)` (line 35): the row-wise
skip-NaN sum of the pivot cells at date `t`. -/
def deviceTotal (df : Dataset) (t : Date) : FVal :=
  nansum ((deviceCols df).map fun c => deviceCell df t c)

/-- `by_device['mobile_tablet'] = by_device.mobile + by_device.tablet`
(line 36): attribute access fails unless both columns exist; NaN cells
propagate through the addition. -/
def by_device_mobile_tablet (df : Dataset) : Except String (List (Date × FVal)) :=
  if hasDeviceCol df "mobile" then
    if hasDeviceCol df "tablet" then
      .ok ((dateIndex (restrictDevices df)).map fun t =>
        (t, (deviceCell df t "mobile").add (deviceCell df t "tablet")))
    else .error "AttributeError: DataFrame object has no attribute tablet"
  else .error "AttributeError: DataFrame object has no attribute mobile"

/-- `by_device['mobile_tablet_pct'] = (by_device.mobile_tablet / by_device.total) * 100`
(line 37). -/
def by_device_mobile_tablet_pct (df : Dataset) : Except String (List (Date × FVal)) :=
  (by_device_mobile_tablet df).map fun col =>
    col.map fun p => (p.1, ((p.2.div (deviceTotal df p.1)).mul (FVal.fin 100)))

/-- One row of `total_by_device` (lines 39-41). -/
structure DeviceEntry where
  device_type : String
  traffic : ℕ
  cookies_supported : ℕ
  cookie_support_pct : FVal
deriving DecidableEq

/-- The distinct device types of the restricted table, the group keys of
`total_by_device`.  (Pandas sorts string group keys alphabetically; the keys
are modelled in first-occurrence order since no specified property depends
on the key order.) -/
def deviceKeys (df : Dataset) : List String :=
  ((restrictDevices df).map Record.device_type).dedup

/-- The rows of `l` with device type `c`. -/
def rowsOfDev (l : List Record) (c : String) : List Record :=
  l.filter fun r => r.device_type = c

/-- `total_by_device = df[df.device_type.isin(top_devices)].groupby('device_type')
.sum().reset_index()` with its `cookie_support_pct` column (lines 39-41). -/
def total_by_device (df : Dataset) : List DeviceEntry :=
  (deviceKeys df).map fun c =>
    { device_type := c
      traffic := sumTraffic (rowsOfDev (restrictDevices df) c)
      cookies_supported := sumCookies (rowsOfDev (restrictDevices df) c)
      cookie_support_pct :=
        ((FVal.fin (sumCookies (rowsOfDev (restrictDevices df) c))).div
          (FVal.fin (sumTraffic (rowsOfDev (restrictDevices df) c)))).mul (FVal.fin 100) }

/-- The rows of `l` with browser name `b`. -/
def rowsOfBrowser (l : List Record) (b : String) : List Record :=
  l.filter fun r => r.browser_name = b

/-- The browser-name columns of the `by_browser` pivot (line 43): the
distinct browser names of the whole table (pandas orders the columns
alphabetically; column order is irrelevant to every specified property). -/
def browserCols (df : Dataset) : List String :=
  (df.map Record.browser_name).dedup

/-- One cell of the `by_browser` pivot (line 43): summed traffic at that date
and browser, NaN when no row matches. -/
def browserCell (df : Dataset) (t : Date) (b : String) : FVal :=
  if (rowsAtBrowser df t b).isEmpty then .nan
  else .fin (sumTraffic (rowsAtBrowser df t b))

/-- `by_browser['total'] = by_browser.sum(axis=1)` (line 44). -/
def browserTotal (df : Dataset) (t : Date) : FVal :=
  nansum ((browserCols df).map fun b => browserCell df t b)

/-- `by_browser['chrome_pct'] = (by_browser.Chrome / by_browser.total) * 100`
(line 45): the attribute access fails unless a `Chrome` column exists, which
requires some row of the whole table to have `browser_name == 'Chrome'`. -/
def by_browser_chrome_pct (df : Dataset) : Except String (List (Date × FVal)) :=
  if "Chrome" ∈ df.map Record.browser_name then
    .ok ((dateIndex df).map fun t =>
      (t, ((browserCell df t "Chrome").div (browserTotal df t)).mul (FVal.fin 100)))
  else .error "AttributeError: DataFrame object has no attribute Chrome"

/-- `df.groupby('browser_name').sum().reset_index().sort_values(by='traffic',
ascending=False).head(14).browser_name.to_list()` (line 28).  The descending
sort is modelled by an insertion sort; numpy's unstable quicksort may order
tied traffic values differently, which the spec documents as
implementation-defined. -/
def top_browsers (df : Dataset) : List String :=
  let names := (df.map Record.browser_name).dedup
  let rows := names.map fun b => (b, sumTraffic (rowsOfBrowser df b))
  let sorted := List.insertionSort (fun p q : String × ℕ => q.2 ≤ p.2) rows
  (sorted.take 14).map Prod.fst

/-- `filtered_df = df[df.device_type.isin(top_devices) &
df.browser_name.isin(top_browsers)]` (lines 47-48). -/
def filtered_df (df : Dataset) : Dataset :=
  df.filter fun r => r.device_type ∈ top_devices ∧ r.browser_name ∈ top_browsers df

/-- `filter_df_by_options` (lines 50-55).  The widget passes `None` or a
name; Python truthiness also skips a filter on the empty string. -/
def filter_df_by_options (df : Dataset) (device_type browser_name : Option String) : Dataset :=
  let df1 :=
    match device_type with
    | some s => if s = "" then df else df.filter fun r => r.device_type = s
    | none => df
  match browser_name with
  | some s => if s = "" then df1 else df1.filter fun r => r.browser_name = s
  | none => df1

/-- `slice_dice_df` (lines 195-197): the option filters applied to
`filtered_df`, re-aggregated by date with `cookie_support_pct` attached
exactly as in `by_day`. -/
def slice_dice_df (df : Dataset) (device_option browser_option : Option String) : List DayEntry :=
  by_day (filter_df_by_options (filtered_df df) device_option browser_option)

/-- `np.amax` on a nonempty array (the empty case is unreachable behind the
empty-input check). -/
def npamax (l : List ℚ) : ℚ :=
  match l with
  | [] => 0
  | a :: t => t.foldl max a

/-- `np.amin` on a nonempty array. -/
def npamin (l : List ℚ) : ℚ :=
  match l with
  | [] => 0
  | a :: t => t.foldl min a

/-- `np.mean` of an array. -/
def npmean (l : List ℚ) : ℚ := l.sum / l.length

/-- `ssxm` of `scipy.stats.linregress`: the biased covariance of x with
itself, `np.cov(x, y, bias=1)[0,0]`, the mean squared deviation of x. -/
def ssxmF (x : List ℚ) : ℚ :=
  ((x.map fun v => (v - npmean x) ^ 2).sum) / x.length

/-- `ssxym` of `scipy.stats.linregress`: the biased covariance of x and y,
the mean product of deviations. -/
def ssxymF (x y : List ℚ) : ℚ :=
  ((List.zipWith (fun a b => (a - npmean x) * (b - npmean y)) x y).sum) / x.length

/-- `slope = ssxym / ssxm` of `scipy.stats.linregress`. -/
def slopeF (x y : List ℚ) : ℚ := ssxymF x y / ssxmF x

/-- `intercept = ymean - slope * xmean` of `scipy.stats.linregress`. -/
def interceptF (x y : List ℚ) : ℚ := npmean y - slopeF x y * npmean x

/-- `scipy.stats.linregress(x, y)`, restricted to the (slope, intercept)
components the script uses.  Mirrors the scipy source: empty input and more
than one identical x value raise `ValueError`; otherwise, when `ssxm` is
zero (exactly one point), the float slope and intercept are 0/0, i.e. NaN,
modelled as `Except.ok none`; otherwise the fit is returned. -/
def linregress (x y : List ℚ) : Except String (Option (ℚ × ℚ)) :=
  if x.length = 0 ∨ y.length = 0 then
    .error "Inputs must not be empty."
  else if x.length ≠ y.length then
    .error "array dimensions must agree"
  else if npamax x = npamin x ∧ 1 < x.length then
    .error "Cannot calculate a linear regression if all x values are identical"
  else if ssxmF x = 0 then
    .ok none
  else
    .ok (some (slopeF x y, interceptF x y))

/-- `line_of_best_fit(dates, y)` (lines 61-67): linregress over the date
ordinals, then the fitted value `slope * x + intercept` at every input
ordinal, in input order.  A NaN slope yields a NaN at every date. -/
def line_of_best_fit (dates : List Date) (y : List ℚ) : Except String (List FVal) :=
  match linregress (dates.map ordQ) y with
  | .error e => .error e
  | .ok none => .ok ((dates.map ordQ).map fun _ => FVal.nan)
  | .ok (some (s, b)) => .ok ((dates.map ordQ).map fun v => FVal.fin (s * v + b))

/-- The sum of squared residuals of the affine model `y = a * x + b` over
paired samples, the quantity ordinary least squares minimizes. -/
def rss (x y : List ℚ) (a b : ℚ) : ℚ :=
  (List.zipWith (fun xi yi => (yi - (a * xi + b)) ^ 2) x y).sum

/-- The summed `traffic` of every group of a grouping of `df` by `key` — the
aggregated traffic column of the corresponding groupby or pivot (pivot cells
with no matching rows are NaN and correspond to no group). -/
def groupTraffic {κ : Type} [DecidableEq κ] (key : Record → κ) (df : Dataset) : List ℕ :=
  (df.map key).dedup.map fun k => sumTraffic (df.filter fun r => key r = k)

/-- An example table with one mobile and one tablet row on the same date,
both with zero traffic. -/
def zeroTrafficTable : Dataset :=
  [⟨⟨2021, 1, 1⟩, "mobile", "A", 0, 0⟩, ⟨⟨2021, 1, 1⟩, "tablet", "A", 0, 0⟩]

deriving instance DecidableEq for Except

/-! ### Grouping lemmas: a groupby over a covering, duplicate-free key list
conserves column sums. -/

/-- Summing `if c = k then w else 0` over a key list not containing `c` gives 0. -/
lemma sum_map_ite_of_not_mem {κ : Type} [DecidableEq κ] (ks : List κ) (c : κ) (w : ℕ)
    (hc : c ∉ ks) : (ks.map fun k => if c = k then w else 0).sum = 0 := by
  induction ks with
  | nil => rfl
  | cons k ks ih =>
    have hck : c ≠ k := fun h => hc (h ▸ List.mem_cons_self k ks)
    have hcs : c ∉ ks := fun h => hc (List.mem_cons_of_mem k h)
    simp [hck, ih hcs]

/-- Summing `if c = k then w else 0` over a duplicate-free key list containing
`c` gives `w`. -/
lemma sum_map_ite_of_mem {κ : Type} [DecidableEq κ] (ks : List κ) (c : κ) (w : ℕ)
    (hnd : ks.Nodup) (hc : c ∈ ks) : (ks.map fun k => if c = k then w else 0).sum = w := by
  induction ks with
  | nil => exact absurd hc (List.not_mem_nil c)
  | cons k ks ih =>
    rcases List.mem_cons.mp hc with rfl | hmem
    · have hnotmem : c ∉ ks := (List.nodup_cons.mp hnd).1
      simp [sum_map_ite_of_not_mem ks c w hnotmem]
    · have hck : c ≠ k := by
        rintro rfl; exact (List.nodup_cons.mp hnd).1 hmem
      simp [hck, ih (List.Nodup.of_cons hnd) hmem]

/-- Conservation under grouping: for any duplicate-free key list covering the
rows, the per-group sums of a column add up to the whole-table sum. -/
lemma sum_groups_eq {κ : Type} [DecidableEq κ] (key : Record → κ) (w : Record → ℕ) :
    ∀ (d : List Record) (ks : List κ), ks.Nodup → (∀ r ∈ d, key r ∈ ks) →
      (ks.map fun k => ((d.filter fun r => key r = k).map w).sum).sum = (d.map w).sum := by
  intro d
  induction d with
  | nil => intro ks _ _; simp
  | cons r d ih =>
    intro ks hnd hcov
    have hsplit : ∀ k : κ,
        (((r :: d).filter fun r' => key r' = k).map w).sum
          = (if key r = k then w r else 0) + ((d.filter fun r' => key r' = k).map w).sum := by
      intro k
      by_cases h : key r = k <;> simp [List.filter_cons, h]
    simp only [hsplit, List.sum_map_add]
    rw [sum_map_ite_of_mem ks (key r) (w r) hnd (hcov r (List.mem_cons_self r d))]
    rw [ih ks hnd (fun r' hr' => hcov r' (List.mem_cons_of_mem r hr'))]
    simp [List.sum_cons]

/-- Finding by key in the image of a key list returns the entry built from
the key, whenever the key occurs and the entry builder preserves the key. -/
lemma find?_map_entry {κ β : Type} [DecidableEq κ] (e : κ → β) (pk : β → κ) (t : κ)
    (hpk : ∀ k, pk (e k) = k) :
    ∀ ks : List κ, t ∈ ks → (ks.map e).find? (fun x => pk x = t) = some (e t) := by
  intro ks
  induction ks with
  | nil => intro h; exact absurd h (List.not_mem_nil t)
  | cons k ks ih =>
    intro ht
    by_cases h : k = t
    · subst h
      simp [List.find?_cons, hpk]
    · have hmem : t ∈ ks := by
        rcases List.mem_cons.mp ht with rfl | hm
        · exact absurd rfl h
        · exact hm
      have hne : decide (pk (e k) = t) = false := by
        simp [hpk, h]
      simp [List.find?_cons, hne, ih hmem]

/-! ### List algebra for the least-squares fit. -/

/-- A sum of squared deviations is nonnegative. -/
lemma sum_sq_dev_nonneg (l : List ℚ) (c : ℚ) : 0 ≤ (l.map fun v => (v - c) ^ 2).sum := by
  apply List.sum_nonneg
  intro q hq
  obtain ⟨v, _, rfl⟩ := List.mem_map.mp hq
  positivity

/-- Expansion of a sum of squared deviations into power sums. -/
lemma sum_sq_dev_expand (l : List ℚ) (c : ℚ) :
    (l.map fun v => (v - c) ^ 2).sum
      = (l.map fun v => v ^ 2).sum - 2 * c * l.sum + l.length * c ^ 2 := by
  induction l with
  | nil => simp
  | cons a t ih =>
    simp only [List.map_cons, List.sum_cons, List.length_cons, ih]
    push_cast
    ring

/-- A sum of squared deviations vanishes only when every element equals `c`. -/
lemma sum_sq_dev_eq_zero (l : List ℚ) (c : ℚ)
    (h : (l.map fun v => (v - c) ^ 2).sum = 0) : ∀ v ∈ l, v = c := by
  induction l with
  | nil => simp
  | cons a t ih =>
    simp only [List.map_cons, List.sum_cons] at h
    have h1 : 0 ≤ (t.map fun v => (v - c) ^ 2).sum := sum_sq_dev_nonneg t c
    have h2 : (0 : ℚ) ≤ (a - c) ^ 2 := sq_nonneg _
    have ha : (a - c) ^ 2 = 0 := by linarith
    have ht : (t.map fun v => (v - c) ^ 2).sum = 0 := by linarith
    intro v hv
    rcases List.mem_cons.mp hv with rfl | hv
    · have := (pow_eq_zero_iff (two_ne_zero)).mp ha
      linarith
    · exact ih ht v hv

/-- Expansion of a sum of deviation products into power sums. -/
lemma sum_zip_dev_expand : ∀ (x y : List ℚ), x.length = y.length → ∀ cx cy : ℚ,
    (List.zipWith (fun a b => (a - cx) * (b - cy)) x y).sum
      = (List.zipWith (fun a b => a * b) x y).sum - cy * x.sum - cx * y.sum
        + x.length * (cx * cy)
  | [], [], _, cx, cy => by simp
  | [], b :: y, h, _, _ => by simp at h
  | a :: x, [], h, _, _ => by simp at h
  | a :: x, b :: y, h, cx, cy => by
    have h' : x.length = y.length := by simpa using h
    have ih := sum_zip_dev_expand x y h' cx cy
    simp only [List.zipWith_cons_cons, List.sum_cons, List.length_cons, ih]
    push_cast
    ring

/-- Expansion of the residual sum of squares into power sums. -/
lemma rss_expand : ∀ (x y : List ℚ), x.length = y.length → ∀ a b : ℚ,
    rss x y a b
      = (y.map fun v => v ^ 2).sum + a ^ 2 * (x.map fun v => v ^ 2).sum
        + x.length * b ^ 2 - 2 * a * (List.zipWith (fun p q => p * q) x y).sum
        - 2 * b * y.sum + 2 * (a * b) * x.sum
  | [], [], _, a, b => by simp [rss]
  | [], c :: y, h, _, _ => by simp at h
  | c :: x, [], h, _, _ => by simp at h
  | p :: x, q :: y, h, a, b => by
    have h' : x.length = y.length := by simpa using h
    have ih := rss_expand x y h' a b
    simp only [rss, List.zipWith_cons_cons, List.sum_cons, List.length_cons,
      List.map_cons] at ih ⊢
    rw [ih]
    push_cast
    ring

/-- Sum of an affine image. -/
lemma sum_map_affine (l : List ℚ) (A B : ℚ) :
    (l.map fun v => A * v + B).sum = A * l.sum + l.length * B := by
  induction l with
  | nil => simp
  | cons a t ih =>
    simp only [List.map_cons, List.sum_cons, List.length_cons, ih]
    push_cast
    ring

/-! ### `np.amax` / `np.amin` bounds. -/

/-- The initial accumulator is below a left max-fold. -/
lemma le_foldl_max : ∀ (t : List ℚ) (a : ℚ), a ≤ t.foldl max a
  | [], a => le_refl a
  | b :: t, a => le_trans (le_max_left a b) (le_foldl_max t (max a b))

/-- Every element is below a left max-fold. -/
lemma mem_le_foldl_max : ∀ (t : List ℚ) (a b : ℚ), b ∈ t → b ≤ t.foldl max a
  | [], _, b, h => absurd h (List.not_mem_nil b)
  | c :: t, a, b, h => by
    rcases List.mem_cons.mp h with rfl | h'
    · exact le_trans (le_max_right a b) (le_foldl_max t (max a b))
    · exact mem_le_foldl_max t (max a c) b h'

/-- A left min-fold is below the initial accumulator. -/
lemma foldl_min_le : ∀ (t : List ℚ) (a : ℚ), t.foldl min a ≤ a
  | [], a => le_refl a
  | b :: t, a => le_trans (foldl_min_le t (min a b)) (min_le_left a b)

/-- A left min-fold is below every element. -/
lemma foldl_min_le_mem : ∀ (t : List ℚ) (a b : ℚ), b ∈ t → t.foldl min a ≤ b
  | [], _, b, h => absurd h (List.not_mem_nil b)
  | c :: t, a, b, h => by
    rcases List.mem_cons.mp h with rfl | h'
    · exact le_trans (foldl_min_le t (min a b)) (min_le_right a b)
    · exact foldl_min_le_mem t (min a c) b h'

/-- Every element is at most `np.amax`. -/
lemma le_npamax (l : List ℚ) (b : ℚ) (h : b ∈ l) : b ≤ npamax l := by
  match l with
  | [] => exact absurd h (List.not_mem_nil b)
  | a :: t =>
    rcases List.mem_cons.mp h with rfl | h'
    · exact le_foldl_max t b
    · exact mem_le_foldl_max t a b h'

/-- `np.amin` is at most every element. -/
lemma npamin_le (l : List ℚ) (b : ℚ) (h : b ∈ l) : npamin l ≤ b := by
  match l with
  | [] => exact absurd h (List.not_mem_nil b)
  | a :: t =>
    rcases List.mem_cons.mp h with rfl | h'
    · exact foldl_min_le t b
    · exact foldl_min_le_mem t a b h'

/-- If the array max equals the array min, all elements are equal. -/
lemma all_eq_of_npamax_eq_npamin (l : List ℚ) (h : npamax l = npamin l) :
    ∀ a ∈ l, ∀ b ∈ l, a = b := by
  intro a ha b hb
  have h1 : a ≤ b := le_trans (le_trans (le_npamax l a ha) (le_of_eq h)) (npamin_le l b hb)
  have h2 : b ≤ a := le_trans (le_trans (le_npamax l b hb) (le_of_eq h)) (npamin_le l a ha)
  exact le_antisymm h1 h2

/-- Two different x values rule out the identical-x error branch. -/
lemma npamax_ne_npamin (x : List ℚ) (hne : ∃ i ∈ x, ∃ j ∈ x, i ≠ j) :
    npamax x ≠ npamin x := by
  obtain ⟨i, hi, j, hj, hij⟩ := hne
  intro h
  exact hij (all_eq_of_npamax_eq_npamin x h i hi j hj)

/-- Two different x values make the x variance positive. -/
lemma ssxmF_pos (x : List ℚ) (hne : ∃ i ∈ x, ∃ j ∈ x, i ≠ j) : 0 < ssxmF x := by
  obtain ⟨i, hi, j, hj, hij⟩ := hne
  have hxe : x ≠ [] := by
    intro h
    exact absurd (h ▸ hi) (List.not_mem_nil i)
  have hl : (0 : ℚ) < x.length := by
    exact_mod_cast List.length_pos.mpr hxe
  have hS : 0 ≤ (x.map fun v => (v - npmean x) ^ 2).sum := sum_sq_dev_nonneg x (npmean x)
  rcases eq_or_lt_of_le hS with h0 | hpos
  · exfalso
    have hall := sum_sq_dev_eq_zero x (npmean x) h0.symm
    exact hij ((hall i hi).trans (hall j hj).symm)
  · exact div_pos hpos hl

/-! ### The least-squares optimality of the scipy slope and intercept. -/

/-- Scalar form of least-squares optimality: with `s`, `b` the normal-equation
solution expressed through power sums, the expanded residual sum of squares at
`(s, b)` is minimal. -/
lemma ols_scalar_min (n Sx Sy Sxx Sxy Syy s b a c : ℚ) (hn : 0 < n)
    (hP : 0 < n * Sxx - Sx ^ 2)
    (hs : s = (n * Sxy - Sx * Sy) / (n * Sxx - Sx ^ 2))
    (hb : b = Sy / n - s * (Sx / n)) :
    Syy + s ^ 2 * Sxx + n * b ^ 2 - 2 * s * Sxy - 2 * b * Sy + 2 * (s * b) * Sx
      ≤ Syy + a ^ 2 * Sxx + n * c ^ 2 - 2 * a * Sxy - 2 * c * Sy + 2 * (a * c) * Sx := by
  have hPne : n * Sxx - Sx ^ 2 ≠ 0 := ne_of_gt hP
  have hnne : n ≠ 0 := ne_of_gt hn
  have key : n * ((Syy + a ^ 2 * Sxx + n * c ^ 2 - 2 * a * Sxy - 2 * c * Sy + 2 * (a * c) * Sx)
        - (Syy + s ^ 2 * Sxx + n * b ^ 2 - 2 * s * Sxy - 2 * b * Sy + 2 * (s * b) * Sx))
      = (a - s) ^ 2 * (n * Sxx - Sx ^ 2) + ((a - s) * Sx + n * (c - b)) ^ 2 := by
    subst hb
    subst hs
    field_simp
    ring
  nlinarith [sq_nonneg ((a - s) * Sx + n * (c - b)), mul_nonneg (sq_nonneg (a - s)) hP.le,
    key, hn]

/-- `ssxm` through power sums. -/
lemma ssxmF_eq (x : List ℚ) (hxe : x ≠ []) :
    ssxmF x = ((x.length : ℚ) * (x.map fun v => v ^ 2).sum - x.sum ^ 2) / (x.length : ℚ) ^ 2 := by
  have hl : ((x.length : ℚ)) ≠ 0 := by
    have : 0 < x.length := List.length_pos.mpr hxe
    exact_mod_cast this.ne'
  unfold ssxmF
  rw [sum_sq_dev_expand x (npmean x)]
  unfold npmean
  field_simp
  ring

/-- `ssxym` through power sums. -/
lemma ssxymF_eq (x y : List ℚ) (hxe : x ≠ []) (hlen : x.length = y.length) :
    ssxymF x y = ((x.length : ℚ) * (List.zipWith (fun p q => p * q) x y).sum
      - x.sum * y.sum) / (x.length : ℚ) ^ 2 := by
  have hl : ((x.length : ℚ)) ≠ 0 := by
    have : 0 < x.length := List.length_pos.mpr hxe
    exact_mod_cast this.ne'
  unfold ssxymF
  rw [sum_zip_dev_expand x y hlen (npmean x) (npmean y)]
  unfold npmean
  rw [← hlen]
  field_simp
  ring

/-- The scipy slope through power sums. -/
lemma slopeF_eq (x y : List ℚ) (hxe : x ≠ []) (hlen : x.length = y.length) :
    slopeF x y = ((x.length : ℚ) * (List.zipWith (fun p q => p * q) x y).sum - x.sum * y.sum)
      / ((x.length : ℚ) * (x.map fun v => v ^ 2).sum - x.sum ^ 2) := by
  have hl : ((x.length : ℚ)) ≠ 0 := by
    have : 0 < x.length := List.length_pos.mpr hxe
    exact_mod_cast this.ne'
  unfold slopeF
  rw [ssxymF_eq x y hxe hlen, ssxmF_eq x hxe, div_div_div_comm, div_self (by positivity),
    div_one]

/-- The fitted slope and intercept minimize the residual sum of squares. -/
lemma slopeF_interceptF_min (x y : List ℚ) (hlen : x.length = y.length)
    (hne : ∃ i ∈ x, ∃ j ∈ x, i ≠ j) :
    ∀ a c : ℚ, rss x y (slopeF x y) (interceptF x y) ≤ rss x y a c := by
  intro a c
  obtain ⟨i, hi, -⟩ := id hne
  have hxe : x ≠ [] := by
    intro h
    exact absurd (h ▸ hi) (List.not_mem_nil i)
  have hss : 0 < ssxmF x := ssxmF_pos x hne
  have hn : (0 : ℚ) < x.length := by
    exact_mod_cast List.length_pos.mpr hxe
  have hP : 0 < (x.length : ℚ) * (x.map fun v => v ^ 2).sum - x.sum ^ 2 := by
    have h2 : ((x.length : ℚ)) ^ 2 * ssxmF x
        = (x.length : ℚ) * (x.map fun v => v ^ 2).sum - x.sum ^ 2 := by
      rw [ssxmF_eq x hxe]
      field_simp
    calc (0 : ℚ) < ((x.length : ℚ)) ^ 2 * ssxmF x := by positivity
    _ = _ := h2
  have hb : interceptF x y = y.sum / (x.length : ℚ) - slopeF x y * (x.sum / (x.length : ℚ)) := by
    unfold interceptF npmean
    rw [← hlen]
  rw [rss_expand x y hlen (slopeF x y) (interceptF x y), rss_expand x y hlen a c]
  exact ols_scalar_min (x.length : ℚ) x.sum y.sum (x.map fun v => v ^ 2).sum
    (List.zipWith (fun p q => p * q) x y).sum (y.map fun v => v ^ 2).sum
    (slopeF x y) (interceptF x y) a c hn hP (slopeF_eq x y hxe hlen) hb

/-- With at least two points and two distinct x values, `linregress` reaches
its main branch and returns the fitted slope and intercept. -/
lemma linregress_eq_fit (x y : List ℚ) (hlen : x.length = y.length) (h2 : 2 ≤ x.length)
    (hne : ∃ i ∈ x, ∃ j ∈ x, i ≠ j) :
    linregress x y = .ok (some (slopeF x y, interceptF x y)) := by
  have hss : 0 < ssxmF x := ssxmF_pos x hne
  have h1 : ¬ (x.length = 0 ∨ y.length = 0) := by omega
  have h3 : ¬ (npamax x = npamin x ∧ 1 < x.length) := by
    rintro ⟨h, -⟩
    exact npamax_ne_npamin x hne h
  unfold linregress
  rw [if_neg h1, if_neg (by omega : ¬ x.length ≠ y.length), if_neg h3, if_neg hss.ne']

/-! ### Index lemmas for the sorted, deduplicated group keys. -/

/-- The date index has no duplicate dates. -/
lemma dateIndex_nodup (l : List Record) : (dateIndex l).Nodup :=
  ((List.perm_insertionSort dateLe _).nodup_iff).mpr (List.nodup_dedup _)

/-- Membership in the date index is membership in the date column. -/
lemma dateIndex_mem_iff (l : List Record) (t : Date) :
    t ∈ dateIndex l ↔ t ∈ l.map Record.date :=
  (List.perm_insertionSort dateLe _).mem_iff.trans List.mem_dedup

/-- Every row's date is in the date index. -/
lemma mem_dateIndex (l : List Record) (r : Record) (hr : r ∈ l) : r.date ∈ dateIndex l :=
  (dateIndex_mem_iff l r.date).mpr (List.mem_map_of_mem Record.date hr)

/-- The device keys have no duplicate device types. -/
lemma deviceKeys_nodup (df : Dataset) : (deviceKeys df).Nodup :=
  List.nodup_dedup _

/-- Every restricted row's device type is among the device keys. -/
lemma mem_deviceKeys (df : Dataset) (r : Record) (hr : r ∈ restrictDevices df) :
    r.device_type ∈ deviceKeys df :=
  List.mem_dedup.mpr (List.mem_map_of_mem Record.device_type hr)

/-- Grouping by any key conserves the summed traffic. -/
lemma groupTraffic_sum {κ : Type} [DecidableEq κ] (key : Record → κ) (df : Dataset) :
    (groupTraffic key df).sum = sumTraffic df := by
  have h := sum_groups_eq key Record.traffic df ((df.map key).dedup) (List.nodup_dedup _)
    (fun r hr => List.mem_dedup.mpr (List.mem_map_of_mem key hr))
  simpa [groupTraffic, sumTraffic] using h

/-! ### Claim theorems. -/

/-- C3: when the optional device/browser filters match zero rows of the
pre-restricted table, the by-date re-aggregation with its attached
`cookie_support_pct` still succeeds and yields the empty (but well-formed)
series. -/
theorem slice_dice_empty_series (df : Dataset) (dev br : Option String)
    (h : filter_df_by_options (filtered_df df) dev br = ([] : Dataset)) :
    slice_dice_df df dev br = [] := by
  unfold slice_dice_df
  rw [h]
  rfl

/-- Witness for C3: a one-row desktop/Chrome table filtered to
mobile/Safari matches nothing, and the aggregated series is empty. -/
theorem slice_dice_empty_series_witness :
    filter_df_by_options
        (filtered_df ([⟨⟨2021, 1, 1⟩, "desktop", "Chrome", 100, 30⟩] : Dataset))
        (some "mobile") (some "Safari") = ([] : Dataset)
    ∧ slice_dice_df ([⟨⟨2021, 1, 1⟩, "desktop", "Chrome", 100, 30⟩] : Dataset)
        (some "mobile") (some "Safari") = [] :=
  ⟨by decide,
    slice_dice_empty_series ([⟨⟨2021, 1, 1⟩, "desktop", "Chrome", 100, 30⟩] : Dataset)
      (some "mobile") (some "Safari") (by decide)⟩

/-- C4 (amended): each grouping conserves the summed traffic of the table it
actually aggregates: the whole Dataset for the by-date grouping and the
(date, browser) pivot, the device-restricted subset for the (date, device)
pivot and the by-device grouping. -/
theorem traffic_conservation (df : Dataset) :
    ((by_day df).map DayEntry.traffic).sum = sumTraffic df
    ∧ (groupTraffic (fun r => (r.date, r.device_type)) (restrictDevices df)).sum
        = sumTraffic (restrictDevices df)
    ∧ ((total_by_device df).map DeviceEntry.traffic).sum = sumTraffic (restrictDevices df)
    ∧ (groupTraffic (fun r => (r.date, r.browser_name)) df).sum = sumTraffic df := by
  refine ⟨?_, groupTraffic_sum _ _, ?_, groupTraffic_sum _ _⟩
  · have h := sum_groups_eq Record.date Record.traffic df (dateIndex df) (dateIndex_nodup df)
      (fun r hr => mem_dateIndex df r hr)
    simpa [by_day, List.map_map, Function.comp, sumTraffic, rowsAt] using h
  · have h := sum_groups_eq Record.device_type Record.traffic (restrictDevices df)
      (deviceKeys df) (deviceKeys_nodup df) (fun r hr => mem_deviceKeys df r hr)
    simpa [total_by_device, List.map_map, Function.comp, sumTraffic, rowsOfDev] using h

/-- Counterexample for C4 as stated: the by-device grouping first drops rows
whose device type is outside desktop/mobile/tablet, so its group sums need
not add up to the traffic of the *entire* Dataset. -/
theorem traffic_conservation_counterexample :
    ¬ (((total_by_device ([⟨⟨2021, 1, 1⟩, "other", "X", 10, 5⟩] : Dataset)).map
          DeviceEntry.traffic).sum
        = sumTraffic ([⟨⟨2021, 1, 1⟩, "other", "X", 10, 5⟩] : Dataset)) := by
  decide

/-- C7: top-14-browser selection is deterministic: two runs over the same
Dataset produce the same ordered list of browser names. -/
theorem top_browsers_deterministic (df : Dataset) (l1 l2 : List String)
    (h1 : l1 = top_browsers df) (h2 : l2 = top_browsers df) : l1 = l2 := by
  rw [h1, h2]

/-- Witness for C7 at a concrete two-browser Dataset. -/
theorem top_browsers_deterministic_witness :
    (["Chrome", "Safari"] : List String)
        = top_browsers ([⟨⟨2021, 1, 1⟩, "desktop", "Chrome", 100, 30⟩,
            ⟨⟨2021, 1, 1⟩, "mobile", "Safari", 50, 40⟩] : Dataset)
    ∧ (["Chrome", "Safari"] : List String)
        = top_browsers ([⟨⟨2021, 1, 1⟩, "desktop", "Chrome", 100, 30⟩,
            ⟨⟨2021, 1, 1⟩, "mobile", "Safari", 50, 40⟩] : Dataset)
    ∧ (["Chrome", "Safari"] : List String) = ["Chrome", "Safari"] :=
  ⟨by decide, by decide,
    top_browsers_deterministic
      ([⟨⟨2021, 1, 1⟩, "desktop", "Chrome", 100, 30⟩,
        ⟨⟨2021, 1, 1⟩, "mobile", "Safari", 50, 40⟩] : Dataset)
      ["Chrome", "Safari"] ["Chrome", "Safari"] (by decide) (by decide)⟩

/-- C9: the `chrome_pct` column can only be computed when some row of the
Dataset has browser name exactly `Chrome`; otherwise the `Chrome` attribute
access on the pivot fails. -/
theorem chrome_pct_requires_chrome (df : Dataset)
    (h : ∀ r ∈ df, r.browser_name ≠ "Chrome") :
    by_browser_chrome_pct df
      = .error "AttributeError: DataFrame object has no attribute Chrome" := by
  unfold by_browser_chrome_pct
  rw [if_neg]
  intro hmem
  obtain ⟨r, hr, hname⟩ := List.mem_map.mp hmem
  exact h r hr hname

/-- Witness for C9 at a Chrome-free Dataset. -/
theorem chrome_pct_requires_chrome_witness :
    (∀ r ∈ ([⟨⟨2021, 1, 1⟩, "desktop", "Firefox", 10, 5⟩] : Dataset),
        r.browser_name ≠ "Chrome")
    ∧ by_browser_chrome_pct ([⟨⟨2021, 1, 1⟩, "desktop", "Firefox", 10, 5⟩] : Dataset)
        = .error "AttributeError: DataFrame object has no attribute Chrome" :=
  ⟨by decide,
    chrome_pct_requires_chrome ([⟨⟨2021, 1, 1⟩, "desktop", "Firefox", 10, 5⟩] : Dataset)
      (by decide)⟩

/-- C2 (amended): a by-date group whose summed traffic is 0 gets a
non-finite `cookie_support_pct`: the division never raises (the model is a
total function), the result is never the finite value 0, and it is NaN
exactly when the summed `cookies_supported` is 0 (always the case when
rows satisfy `cookies_supported ≤ traffic`) and +infinity otherwise. -/
theorem zero_traffic_pct (df : Dataset) (e : DayEntry) (he : e ∈ by_day df)
    (h0 : e.traffic = 0) :
    e.cookie_support_pct ≠ FVal.fin 0
    ∧ (e.cookies_supported = 0 → e.cookie_support_pct = FVal.nan)
    ∧ (e.cookies_supported ≠ 0 → e.cookie_support_pct = FVal.pinf) := by
  obtain ⟨t, -, rfl⟩ := List.mem_map.mp he
  simp only at h0 ⊢
  rw [h0]
  by_cases hC : sumCookies (rowsAt df t) = 0
  · simp [hC, FVal.div, FVal.mul]
  · have hCpos : (0 : ℚ) < (sumCookies (rowsAt df t) : ℚ) := by
      exact_mod_cast Nat.pos_of_ne_zero hC
    simp [FVal.div, FVal.mul, hCpos.ne', hCpos, hC]

/-- Witness for C2 at a one-row zero-traffic Dataset. -/
theorem zero_traffic_pct_witness :
    ((⟨⟨2021, 1, 1⟩, 0, 0, FVal.nan⟩ : DayEntry)
        ∈ by_day ([⟨⟨2021, 1, 1⟩, "desktop", "Chrome", 0, 0⟩] : Dataset)
      ∧ (⟨⟨2021, 1, 1⟩, 0, 0, FVal.nan⟩ : DayEntry).traffic = 0)
    ∧ ((⟨⟨2021, 1, 1⟩, 0, 0, FVal.nan⟩ : DayEntry).cookie_support_pct ≠ FVal.fin 0
      ∧ ((⟨⟨2021, 1, 1⟩, 0, 0, FVal.nan⟩ : DayEntry).cookies_supported = 0 →
          (⟨⟨2021, 1, 1⟩, 0, 0, FVal.nan⟩ : DayEntry).cookie_support_pct = FVal.nan)
      ∧ ((⟨⟨2021, 1, 1⟩, 0, 0, FVal.nan⟩ : DayEntry).cookies_supported ≠ 0 →
          (⟨⟨2021, 1, 1⟩, 0, 0, FVal.nan⟩ : DayEntry).cookie_support_pct = FVal.pinf)) :=
  ⟨⟨by decide, by decide⟩,
    zero_traffic_pct ([⟨⟨2021, 1, 1⟩, "desktop", "Chrome", 0, 0⟩] : Dataset)
      (⟨⟨2021, 1, 1⟩, 0, 0, FVal.nan⟩ : DayEntry) (by decide) (by decide)⟩

/-- Counterexample for C2 as stated: a zero-traffic group with positive
summed cookies gets `cookie_support_pct` equal to +infinity, a value
distinct from the NaN-equivalent the claim requires. -/
theorem zero_traffic_pct_counterexample :
    by_day ([⟨⟨2021, 1, 1⟩, "desktop", "Chrome", 0, 5⟩] : Dataset)
      = [⟨⟨2021, 1, 1⟩, 0, 5, FVal.pinf⟩]
    ∧ FVal.pinf ≠ FVal.nan := by
  decide

/-- C8: the by-date aggregation has exactly one entry per distinct input
date; the entry found for a date carries the summed traffic, summed cookies
and the percentage column; on nonzero traffic that percentage equals
`100 * cookies_supported / traffic`. -/
theorem by_day_spec (df : Dataset) :
    ((by_day df).map DayEntry.date).Nodup
    ∧ (∀ t : Date, t ∈ (by_day df).map DayEntry.date ↔ t ∈ df.map Record.date)
    ∧ (∀ t : Date, t ∈ df.map Record.date →
        (by_day df).find? (fun e => e.date = t)
          = some { date := t, traffic := sumTraffic (rowsAt df t),
                   cookies_supported := sumCookies (rowsAt df t),
                   cookie_support_pct := ((FVal.fin (sumCookies (rowsAt df t))).div
                     (FVal.fin (sumTraffic (rowsAt df t)))).mul (FVal.fin 100) })
    ∧ (∀ e ∈ by_day df, e.traffic ≠ 0 →
        e.cookie_support_pct
          = FVal.fin (100 * (e.cookies_supported : ℚ) / (e.traffic : ℚ))) := by
  have hdates : (by_day df).map DayEntry.date = dateIndex df := by
    simp [by_day, List.map_map, Function.comp_def]
  refine ⟨?_, ?_, ?_, ?_⟩
  · rw [hdates]
    exact dateIndex_nodup df
  · intro t
    rw [hdates]
    exact dateIndex_mem_iff df t
  · intro t ht
    exact find?_map_entry _ DayEntry.date t (fun k => rfl) (dateIndex df)
      ((dateIndex_mem_iff df t).mpr ht)
  · intro e he hT
    obtain ⟨t, -, rfl⟩ := List.mem_map.mp he
    simp only at hT ⊢
    have hTpos : (0 : ℚ) < (sumTraffic (rowsAt df t) : ℚ) := by
      exact_mod_cast Nat.pos_of_ne_zero hT
    simp [FVal.div, FVal.mul, hTpos.ne']
    ring

/-- Witness for C8 at the spec's example Dataset: the 2021-01-01 entry has
traffic 150, cookies 70 and percentage 140/3 = 46.666... . -/
theorem by_day_spec_witness :
    (⟨2021, 1, 1⟩ : Date) ∈ ([⟨⟨2021, 1, 1⟩, "desktop", "Chrome", 100, 30⟩,
        ⟨⟨2021, 1, 1⟩, "mobile", "Chrome", 50, 40⟩] : Dataset).map Record.date
    ∧ (by_day ([⟨⟨2021, 1, 1⟩, "desktop", "Chrome", 100, 30⟩,
          ⟨⟨2021, 1, 1⟩, "mobile", "Chrome", 50, 40⟩] : Dataset)).find?
        (fun e => e.date = ⟨2021, 1, 1⟩)
        = some ⟨⟨2021, 1, 1⟩, 150, 70, FVal.fin (140 / 3)⟩ :=
  ⟨by decide, by
    have h := (by_day_spec ([⟨⟨2021, 1, 1⟩, "desktop", "Chrome", 100, 30⟩,
        ⟨⟨2021, 1, 1⟩, "mobile", "Chrome", 50, 40⟩] : Dataset)).2.2.1
      ⟨2021, 1, 1⟩ (by decide)
    rw [h,
      show sumTraffic (rowsAt ([⟨⟨2021, 1, 1⟩, "desktop", "Chrome", 100, 30⟩,
          ⟨⟨2021, 1, 1⟩, "mobile", "Chrome", 50, 40⟩] : Dataset) ⟨2021, 1, 1⟩) = 150
        from by decide,
      show sumCookies (rowsAt ([⟨⟨2021, 1, 1⟩, "desktop", "Chrome", 100, 30⟩,
          ⟨⟨2021, 1, 1⟩, "mobile", "Chrome", 50, 40⟩] : Dataset) ⟨2021, 1, 1⟩) = 70
        from by decide]
    norm_num [FVal.div, FVal.mul]⟩

/-- C1 (amended): with 0 points the Trend Estimator raises scipy's explicit
empty-input error, but with exactly 1 point it does not fail: it silently
returns a single NaN fitted value (the float slope is 0/0). -/
theorem lobf_short_input (dates : List Date) (y : List ℚ)
    (hlen : y.length = dates.length) (hlt : dates.length < 2) :
    (dates.length = 0 → line_of_best_fit dates y = .error "Inputs must not be empty.")
    ∧ (dates.length = 1 → line_of_best_fit dates y = .ok [FVal.nan]) := by
  constructor
  · intro h0
    have hd : dates = [] := List.length_eq_zero.mp h0
    have hy : y = [] := List.length_eq_zero.mp (by omega)
    subst hd
    subst hy
    rfl
  · intro h1
    obtain ⟨t, rfl⟩ := List.length_eq_one.mp h1
    have hy1 : y.length = 1 := by simpa using hlen
    obtain ⟨v, rfl⟩ := List.length_eq_one.mp hy1
    have hss : ssxmF [ordQ t] = 0 := by
      unfold ssxmF npmean
      norm_num
    unfold line_of_best_fit
    have hlr : linregress [ordQ t] [v] = .ok none := by
      unfold linregress
      rw [if_neg (by norm_num), if_neg (by norm_num), if_neg (by norm_num), if_pos hss]
    simp only [List.map_cons, List.map_nil]
    rw [hlr]

/-- Witness for C1 at a one-point input. -/
theorem lobf_short_input_witness :
    (([(5 : ℚ)] : List ℚ).length = ([⟨2021, 1, 1⟩] : List Date).length
      ∧ ([⟨2021, 1, 1⟩] : List Date).length < 2)
    ∧ (([⟨2021, 1, 1⟩] : List Date).length = 0 →
        line_of_best_fit [⟨2021, 1, 1⟩] [(5 : ℚ)] = .error "Inputs must not be empty.")
    ∧ (([⟨2021, 1, 1⟩] : List Date).length = 1 →
        line_of_best_fit [⟨2021, 1, 1⟩] [(5 : ℚ)] = .ok [FVal.nan]) :=
  ⟨⟨by decide, by decide⟩,
    (lobf_short_input [⟨2021, 1, 1⟩] [(5 : ℚ)] (by decide) (by decide)).1,
    (lobf_short_input [⟨2021, 1, 1⟩] [(5 : ℚ)] (by decide) (by decide)).2⟩

/-- Counterexample for C1 as stated: on the 1-point input the Trend Estimator
does not fail — it returns a (misleading) one-element fitted sequence, whose
value is NaN. -/
theorem lobf_single_point_counterexample :
    line_of_best_fit [⟨2021, 1, 1⟩] [(5 : ℚ)] = Except.ok [FVal.nan] := by
  have hss : ssxmF [ordQ ⟨2021, 1, 1⟩] = 0 := by
    unfold ssxmF npmean
    norm_num
  unfold line_of_best_fit
  have hlr : linregress [ordQ ⟨2021, 1, 1⟩] [(5 : ℚ)] = .ok none := by
    unfold linregress
    rw [if_neg (by norm_num), if_neg (by norm_num), if_neg (by norm_num), if_pos hss]
  simp only [List.map_cons, List.map_nil]
  rw [hlr]

/-- C5 (amended): for inputs of length at least 2 whose date ordinals are not
all identical, the Trend Estimator returns exactly one fitted value per input
date, in input order, equal to `slope * ordinal(date) + intercept`, where the
returned slope and intercept minimize the sum of squared residuals over the
ordinal-encoded dates. -/
theorem lobf_ols_fit (dates : List Date) (y : List ℚ)
    (hlen : dates.length = y.length) (h2 : 2 ≤ dates.length)
    (hne : ∃ i ∈ dates.map ordQ, ∃ j ∈ dates.map ordQ, i ≠ j) :
    ∃ s b : ℚ,
      line_of_best_fit dates y = .ok (dates.map fun t => FVal.fin (s * ordQ t + b))
      ∧ ∀ a c : ℚ, rss (dates.map ordQ) y s b ≤ rss (dates.map ordQ) y a c := by
  have hlen' : (dates.map ordQ).length = y.length := by simpa using hlen
  refine ⟨slopeF (dates.map ordQ) y, interceptF (dates.map ordQ) y, ?_, ?_⟩
  · unfold line_of_best_fit
    rw [linregress_eq_fit (dates.map ordQ) y hlen' (by simpa using h2) hne]
    simp [List.map_map, Function.comp_def]
  · exact slopeF_interceptF_min (dates.map ordQ) y hlen' hne

/-- Witness for C5 at a concrete two-day input. -/
theorem lobf_ols_fit_witness :
    (([⟨2021, 1, 1⟩, ⟨2021, 1, 2⟩] : List Date).length = ([(1 : ℚ), 2] : List ℚ).length
      ∧ 2 ≤ ([⟨2021, 1, 1⟩, ⟨2021, 1, 2⟩] : List Date).length
      ∧ (∃ i ∈ ([⟨2021, 1, 1⟩, ⟨2021, 1, 2⟩] : List Date).map ordQ,
          ∃ j ∈ ([⟨2021, 1, 1⟩, ⟨2021, 1, 2⟩] : List Date).map ordQ, i ≠ j))
    ∧ (∃ s b : ℚ,
        line_of_best_fit [⟨2021, 1, 1⟩, ⟨2021, 1, 2⟩] [(1 : ℚ), 2]
          = .ok (([⟨2021, 1, 1⟩, ⟨2021, 1, 2⟩] : List Date).map
              fun t => FVal.fin (s * ordQ t + b))
        ∧ ∀ a c : ℚ,
            rss (([⟨2021, 1, 1⟩, ⟨2021, 1, 2⟩] : List Date).map ordQ) [(1 : ℚ), 2] s b
              ≤ rss (([⟨2021, 1, 1⟩, ⟨2021, 1, 2⟩] : List Date).map ordQ) [(1 : ℚ), 2] a c) :=
  ⟨⟨by decide, by decide, by decide⟩,
    lobf_ols_fit [⟨2021, 1, 1⟩, ⟨2021, 1, 2⟩] [(1 : ℚ), 2] (by decide) (by decide) (by decide)⟩

/-- Counterexample for C5 as stated: a length-2 input whose two dates are
identical does not produce 2 fitted values — scipy raises its identical-x
error instead. -/
theorem lobf_identical_dates_counterexample :
    line_of_best_fit [⟨2021, 1, 1⟩, ⟨2021, 1, 1⟩] [(1 : ℚ), 2]
      = Except.error "Cannot calculate a linear regression if all x values are identical" := by
  decide

/-- The scipy slope and intercept recover an exact affine relation. -/
lemma slopeF_affine (x : List ℚ) (A B : ℚ) (hxe : x ≠ []) (hss : ssxmF x ≠ 0) :
    slopeF x (x.map fun v => A * v + B) = A
    ∧ interceptF x (x.map fun v => A * v + B) = B := by
  have hl : ((x.length : ℚ)) ≠ 0 := by
    have : 0 < x.length := List.length_pos.mpr hxe
    exact_mod_cast this.ne'
  have hym : npmean (x.map fun v => A * v + B) = A * npmean x + B := by
    unfold npmean
    rw [sum_map_affine, List.length_map]
    field_simp
    ring
  have hzip : ssxymF x (x.map fun v => A * v + B) = A * ssxmF x := by
    unfold ssxymF ssxmF
    rw [List.zipWith_map_right, List.zipWith_same, hym]
    have hfun : (fun a : ℚ => (a - npmean x) * (A * a + B - (A * npmean x + B)))
        = fun a : ℚ => A * ((a - npmean x) ^ 2) := by
      funext a
      ring
    rw [hfun, List.sum_map_mul_left, mul_div_assoc]
  have hslope : slopeF x (x.map fun v => A * v + B) = A := by
    unfold slopeF
    rw [hzip, mul_div_assoc, div_self hss, mul_one]
  refine ⟨hslope, ?_⟩
  unfold interceptF
  rw [hslope, hym]
  ring

/-- C6: on an input whose values lie exactly on a line in the ordinal date
encoding (at least 2 points, not all ordinals identical), the fitted values
equal the input values exactly. -/
theorem lobf_linear_roundtrip (dates : List Date) (A B : ℚ) (h2 : 2 ≤ dates.length)
    (hne : ∃ i ∈ dates.map ordQ, ∃ j ∈ dates.map ordQ, i ≠ j) :
    line_of_best_fit dates ((dates.map ordQ).map fun v => A * v + B)
      = .ok (((dates.map ordQ).map fun v => A * v + B).map FVal.fin) := by
  have hlen : (dates.map ordQ).length = ((dates.map ordQ).map fun v => A * v + B).length := by
    simp
  have hxe : dates.map ordQ ≠ [] := by
    intro h
    obtain ⟨i, hi, -⟩ := id hne
    exact absurd (h ▸ hi) (List.not_mem_nil i)
  have hss := (ssxmF_pos (dates.map ordQ) hne).ne'
  obtain ⟨hs, hb⟩ := slopeF_affine (dates.map ordQ) A B hxe hss
  unfold line_of_best_fit
  rw [linregress_eq_fit (dates.map ordQ) _ hlen (by simpa using h2) hne, hs, hb]
  simp [List.map_map, Function.comp_def]

/-- Witness for C6 with the spec's example line `y = 2 x + 3` over three days. -/
theorem lobf_linear_roundtrip_witness :
    (2 ≤ ([⟨2021, 1, 1⟩, ⟨2021, 1, 2⟩, ⟨2021, 1, 3⟩] : List Date).length
      ∧ (∃ i ∈ ([⟨2021, 1, 1⟩, ⟨2021, 1, 2⟩, ⟨2021, 1, 3⟩] : List Date).map ordQ,
          ∃ j ∈ ([⟨2021, 1, 1⟩, ⟨2021, 1, 2⟩, ⟨2021, 1, 3⟩] : List Date).map ordQ, i ≠ j))
    ∧ line_of_best_fit [⟨2021, 1, 1⟩, ⟨2021, 1, 2⟩, ⟨2021, 1, 3⟩]
        ((([⟨2021, 1, 1⟩, ⟨2021, 1, 2⟩, ⟨2021, 1, 3⟩] : List Date).map ordQ).map
          fun v => 2 * v + 3)
        = .ok (((([⟨2021, 1, 1⟩, ⟨2021, 1, 2⟩, ⟨2021, 1, 3⟩] : List Date).map ordQ).map
            fun v => 2 * v + 3).map FVal.fin) :=
  ⟨⟨by decide, by decide⟩,
    lobf_linear_roundtrip [⟨2021, 1, 1⟩, ⟨2021, 1, 2⟩, ⟨2021, 1, 3⟩] 2 3
      (by decide) (by decide)⟩

/-! ### Float-value computation lemmas and the device pivot bridge. -/

/-- Finite plus finite is their finite sum. -/
lemma FVal.fin_add (a b : ℚ) : (FVal.fin a).add (FVal.fin b) = FVal.fin (a + b) := rfl

/-- Finite times finite is their finite product. -/
lemma FVal.fin_mul (a b : ℚ) : (FVal.fin a).mul (FVal.fin b) = FVal.fin (a * b) := rfl

/-- Finite divided by nonzero finite is their finite quotient. -/
lemma FVal.fin_div (a b : ℚ) (h : b ≠ 0) :
    (FVal.fin a).div (FVal.fin b) = FVal.fin (a / b) := by
  simp [FVal.div, h]

/-- NaN propagates through addition on the left. -/
lemma FVal.nan_add (v : FVal) : FVal.nan.add v = FVal.nan := by
  cases v <;> rfl

/-- NaN propagates through addition on the right. -/
lemma FVal.add_nan (v : FVal) : v.add FVal.nan = FVal.nan := by
  cases v <;> rfl

/-- NaN propagates through division. -/
lemma FVal.nan_div (v : FVal) : FVal.nan.div v = FVal.nan := by
  cases v <;> rfl

/-- NaN propagates through multiplication. -/
lemma FVal.nan_mul (v : FVal) : FVal.nan.mul v = FVal.nan := by
  cases v <;> rfl

/-- A pivot cell with no matching rows is NaN. -/
lemma deviceCell_of_empty (df : Dataset) (t : Date) (c : String)
    (h : rowsAtDev (restrictDevices df) t c = []) : deviceCell df t c = FVal.nan := by
  unfold deviceCell
  rw [h]
  rfl

/-- A pivot cell with matching rows is their finite traffic sum. -/
lemma deviceCell_of_ne (df : Dataset) (t : Date) (c : String)
    (h : rowsAtDev (restrictDevices df) t c ≠ []) :
    deviceCell df t c = FVal.fin (sumTraffic (rowsAtDev (restrictDevices df) t c)) := by
  unfold deviceCell
  rw [if_neg]
  simpa [List.isEmpty_iff] using h

/-- The pivot columns are duplicate-free. -/
lemma deviceCols_nodup (df : Dataset) : (deviceCols df).Nodup :=
  List.Nodup.filter _ (by decide)

/-- The device type of every restricted row at a date is a pivot column. -/
lemma mem_deviceCols (df : Dataset) (t : Date) (r : Record)
    (hr : r ∈ rowsAt (restrictDevices df) t) : r.device_type ∈ deviceCols df := by
  have hr' : r ∈ restrictDevices df := List.mem_of_mem_filter hr
  have hd : r.device_type ∈ top_devices := by
    have h := List.mem_filter.mp hr'
    simpa using h.2
  refine List.mem_filter.mpr ⟨hd, ?_⟩
  exact List.any_eq_true.mpr ⟨r, hr', by simp⟩

/-- The skip-NaN cell reduction keeps exactly the finite traffic sums. -/
lemma filterMap_toFin_cells (df : Dataset) (t : Date) (ks : List String) :
    ((ks.map fun c => deviceCell df t c).filterMap FVal.toFin).sum
      = (ks.map fun c => (sumTraffic (rowsAtDev (restrictDevices df) t c) : ℚ)).sum := by
  induction ks with
  | nil => simp
  | cons c ks ih =>
    simp only [List.map_cons, List.filterMap_cons]
    by_cases hc : rowsAtDev (restrictDevices df) t c = []
    · rw [deviceCell_of_empty df t c hc]
      simp only [FVal.toFin, List.sum_cons]
      rw [ih]
      simp [hc, sumTraffic]
    · rw [deviceCell_of_ne df t c hc]
      simp only [FVal.toFin, List.sum_cons]
      rw [ih]

/-- The row-wise skip-NaN `total` of the device pivot at a date is the finite
sum of the restricted traffic at that date. -/
lemma deviceTotal_eq (df : Dataset) (t : Date) :
    deviceTotal df t = FVal.fin (sumTraffic (rowsAt (restrictDevices df) t)) := by
  unfold deviceTotal nansum
  rw [filterMap_toFin_cells df t (deviceCols df)]
  congr 1
  have hnat : ((deviceCols df).map fun c => sumTraffic (rowsAtDev (restrictDevices df) t c)).sum
      = sumTraffic (rowsAt (restrictDevices df) t) := by
    have h := sum_groups_eq Record.device_type Record.traffic (rowsAt (restrictDevices df) t)
      (deviceCols df) (deviceCols_nodup df) (fun r hr => mem_deviceCols df t r hr)
    simpa [sumTraffic, rowsAtDev] using h
  calc ((deviceCols df).map fun c => (sumTraffic (rowsAtDev (restrictDevices df) t c) : ℚ)).sum
      = (((deviceCols df).map fun c => sumTraffic (rowsAtDev (restrictDevices df) t c)).map
          (Nat.cast : ℕ → ℚ)).sum := by
        rw [List.map_map]
        rfl
    _ = ((((deviceCols df).map
          fun c => sumTraffic (rowsAtDev (restrictDevices df) t c)).sum : ℕ) : ℚ) :=
        (Nat.cast_list_sum _).symm
    _ = _ := by rw [hnat]

/-- C10 (amended): in the device pivot, whenever both `mobile` and `tablet`
columns exist, for a date in the index missing mobile rows or tablet rows
the `mobile_tablet` and `mobile_tablet_pct` entries are NaN while `total`
stays finite; with at least one mobile row and one tablet row,
`mobile_tablet` is finite, and `mobile_tablet_pct` is finite provided the
date's total restricted traffic is nonzero. -/
theorem mobile_tablet_partial_dates (df : Dataset) (t : Date)
    (hm : hasDeviceCol df "mobile" = true) (ht : hasDeviceCol df "tablet" = true)
    (hidx : t ∈ (restrictDevices df).map Record.date) :
    ∃ mtcol pctcol : List (Date × FVal),
      by_device_mobile_tablet df = .ok mtcol
      ∧ by_device_mobile_tablet_pct df = .ok pctcol
      ∧ mtcol.find? (fun p => p.1 = t)
          = some (t, (deviceCell df t "mobile").add (deviceCell df t "tablet"))
      ∧ pctcol.find? (fun p => p.1 = t)
          = some (t, (((deviceCell df t "mobile").add (deviceCell df t "tablet")).div
              (deviceTotal df t)).mul (FVal.fin 100))
      ∧ deviceTotal df t = FVal.fin (sumTraffic (rowsAt (restrictDevices df) t))
      ∧ ((rowsAtDev (restrictDevices df) t "mobile" = []
            ∨ rowsAtDev (restrictDevices df) t "tablet" = []) →
          (deviceCell df t "mobile").add (deviceCell df t "tablet") = FVal.nan
          ∧ (((deviceCell df t "mobile").add (deviceCell df t "tablet")).div
              (deviceTotal df t)).mul (FVal.fin 100) = FVal.nan)
      ∧ (rowsAtDev (restrictDevices df) t "mobile" ≠ [] →
          rowsAtDev (restrictDevices df) t "tablet" ≠ [] →
          (∃ q : ℚ, (deviceCell df t "mobile").add (deviceCell df t "tablet") = FVal.fin q)
          ∧ (sumTraffic (rowsAt (restrictDevices df) t) ≠ 0 →
              ∃ q : ℚ, (((deviceCell df t "mobile").add (deviceCell df t "tablet")).div
                  (deviceTotal df t)).mul (FVal.fin 100) = FVal.fin q)) := by
  have hmem : t ∈ dateIndex (restrictDevices df) :=
    (dateIndex_mem_iff (restrictDevices df) t).mpr hidx
  have hmt : by_device_mobile_tablet df
      = .ok ((dateIndex (restrictDevices df)).map fun u =>
          (u, (deviceCell df u "mobile").add (deviceCell df u "tablet"))) := by
    unfold by_device_mobile_tablet
    rw [if_pos hm, if_pos ht]
  have hpct : by_device_mobile_tablet_pct df
      = .ok ((dateIndex (restrictDevices df)).map fun u =>
          (u, (((deviceCell df u "mobile").add (deviceCell df u "tablet")).div
            (deviceTotal df u)).mul (FVal.fin 100))) := by
    unfold by_device_mobile_tablet_pct
    rw [hmt]
    simp [Except.map, List.map_map, Function.comp_def]
  refine ⟨_, _, hmt, hpct, ?_, ?_, deviceTotal_eq df t, ?_, ?_⟩
  · exact find?_map_entry _ Prod.fst t (fun k => rfl) (dateIndex (restrictDevices df)) hmem
  · exact find?_map_entry _ Prod.fst t (fun k => rfl) (dateIndex (restrictDevices df)) hmem
  · rintro (hM | hT)
    · rw [deviceCell_of_empty df t "mobile" hM, FVal.nan_add, FVal.nan_div, FVal.nan_mul]
      exact ⟨rfl, rfl⟩
    · rw [deviceCell_of_empty df t "tablet" hT, FVal.add_nan, FVal.nan_div, FVal.nan_mul]
      exact ⟨rfl, rfl⟩
  · intro hM hT
    rw [deviceCell_of_ne df t "mobile" hM, deviceCell_of_ne df t "tablet" hT]
    refine ⟨⟨_, rfl⟩, ?_⟩
    intro hT0
    have hT0q : ((sumTraffic (rowsAt (restrictDevices df) t) : ℚ)) ≠ 0 := by
      exact_mod_cast hT0
    rw [deviceTotal_eq df t, FVal.fin_add, FVal.fin_div _ _ hT0q, FVal.fin_mul]
    exact ⟨_, rfl⟩

/-- Witness for C10: a table with one mobile row on 2021-01-01 and one tablet
row on 2021-01-02, specialized at the date 2021-01-01 (which lacks tablet rows). -/
theorem mobile_tablet_partial_dates_witness :
    (hasDeviceCol ([⟨⟨2021, 1, 1⟩, "mobile", "A", 3, 1⟩,
        ⟨⟨2021, 1, 2⟩, "tablet", "A", 5, 2⟩] : Dataset) "mobile" = true
      ∧ hasDeviceCol ([⟨⟨2021, 1, 1⟩, "mobile", "A", 3, 1⟩,
          ⟨⟨2021, 1, 2⟩, "tablet", "A", 5, 2⟩] : Dataset) "tablet" = true
      ∧ (⟨2021, 1, 1⟩ : Date) ∈ (restrictDevices ([⟨⟨2021, 1, 1⟩, "mobile", "A", 3, 1⟩,
          ⟨⟨2021, 1, 2⟩, "tablet", "A", 5, 2⟩] : Dataset)).map Record.date)
    ∧ (∃ mtcol pctcol : List (Date × FVal),
        by_device_mobile_tablet ([⟨⟨2021, 1, 1⟩, "mobile", "A", 3, 1⟩,
            ⟨⟨2021, 1, 2⟩, "tablet", "A", 5, 2⟩] : Dataset) = .ok mtcol
        ∧ by_device_mobile_tablet_pct ([⟨⟨2021, 1, 1⟩, "mobile", "A", 3, 1⟩,
            ⟨⟨2021, 1, 2⟩, "tablet", "A", 5, 2⟩] : Dataset) = .ok pctcol
        ∧ mtcol.find? (fun p => p.1 = (⟨2021, 1, 1⟩ : Date))
            = some (⟨2021, 1, 1⟩,
                (deviceCell ([⟨⟨2021, 1, 1⟩, "mobile", "A", 3, 1⟩,
                    ⟨⟨2021, 1, 2⟩, "tablet", "A", 5, 2⟩] : Dataset) ⟨2021, 1, 1⟩ "mobile").add
                  (deviceCell ([⟨⟨2021, 1, 1⟩, "mobile", "A", 3, 1⟩,
                    ⟨⟨2021, 1, 2⟩, "tablet", "A", 5, 2⟩] : Dataset) ⟨2021, 1, 1⟩ "tablet"))
        ∧ pctcol.find? (fun p => p.1 = (⟨2021, 1, 1⟩ : Date))
            = some (⟨2021, 1, 1⟩,
                (((deviceCell ([⟨⟨2021, 1, 1⟩, "mobile", "A", 3, 1⟩,
                    ⟨⟨2021, 1, 2⟩, "tablet", "A", 5, 2⟩] : Dataset) ⟨2021, 1, 1⟩ "mobile").add
                  (deviceCell ([⟨⟨2021, 1, 1⟩, "mobile", "A", 3, 1⟩,
                    ⟨⟨2021, 1, 2⟩, "tablet", "A", 5, 2⟩] : Dataset) ⟨2021, 1, 1⟩ "tablet")).div
                  (deviceTotal ([⟨⟨2021, 1, 1⟩, "mobile", "A", 3, 1⟩,
                    ⟨⟨2021, 1, 2⟩, "tablet", "A", 5, 2⟩] : Dataset) ⟨2021, 1, 1⟩)).mul
                  (FVal.fin 100))
        ∧ deviceTotal ([⟨⟨2021, 1, 1⟩, "mobile", "A", 3, 1⟩,
              ⟨⟨2021, 1, 2⟩, "tablet", "A", 5, 2⟩] : Dataset) ⟨2021, 1, 1⟩
            = FVal.fin (sumTraffic (rowsAt (restrictDevices
                ([⟨⟨2021, 1, 1⟩, "mobile", "A", 3, 1⟩,
                  ⟨⟨2021, 1, 2⟩, "tablet", "A", 5, 2⟩] : Dataset)) ⟨2021, 1, 1⟩))
        ∧ ((rowsAtDev (restrictDevices ([⟨⟨2021, 1, 1⟩, "mobile", "A", 3, 1⟩,
                ⟨⟨2021, 1, 2⟩, "tablet", "A", 5, 2⟩] : Dataset)) ⟨2021, 1, 1⟩ "mobile" = []
              ∨ rowsAtDev (restrictDevices ([⟨⟨2021, 1, 1⟩, "mobile", "A", 3, 1⟩,
                  ⟨⟨2021, 1, 2⟩, "tablet", "A", 5, 2⟩] : Dataset)) ⟨2021, 1, 1⟩ "tablet" = []) →
            (deviceCell ([⟨⟨2021, 1, 1⟩, "mobile", "A", 3, 1⟩,
                ⟨⟨2021, 1, 2⟩, "tablet", "A", 5, 2⟩] : Dataset) ⟨2021, 1, 1⟩ "mobile").add
              (deviceCell ([⟨⟨2021, 1, 1⟩, "mobile", "A", 3, 1⟩,
                ⟨⟨2021, 1, 2⟩, "tablet", "A", 5, 2⟩] : Dataset) ⟨2021, 1, 1⟩ "tablet")
              = FVal.nan
            ∧ (((deviceCell ([⟨⟨2021, 1, 1⟩, "mobile", "A", 3, 1⟩,
                  ⟨⟨2021, 1, 2⟩, "tablet", "A", 5, 2⟩] : Dataset) ⟨2021, 1, 1⟩ "mobile").add
                (deviceCell ([⟨⟨2021, 1, 1⟩, "mobile", "A", 3, 1⟩,
                  ⟨⟨2021, 1, 2⟩, "tablet", "A", 5, 2⟩] : Dataset) ⟨2021, 1, 1⟩ "tablet")).div
                (deviceTotal ([⟨⟨2021, 1, 1⟩, "mobile", "A", 3, 1⟩,
                  ⟨⟨2021, 1, 2⟩, "tablet", "A", 5, 2⟩] : Dataset) ⟨2021, 1, 1⟩)).mul
                (FVal.fin 100) = FVal.nan)
        ∧ (rowsAtDev (restrictDevices ([⟨⟨2021, 1, 1⟩, "mobile", "A", 3, 1⟩,
              ⟨⟨2021, 1, 2⟩, "tablet", "A", 5, 2⟩] : Dataset)) ⟨2021, 1, 1⟩ "mobile" ≠ [] →
            rowsAtDev (restrictDevices ([⟨⟨2021, 1, 1⟩, "mobile", "A", 3, 1⟩,
              ⟨⟨2021, 1, 2⟩, "tablet", "A", 5, 2⟩] : Dataset)) ⟨2021, 1, 1⟩ "tablet" ≠ [] →
            (∃ q : ℚ, (deviceCell ([⟨⟨2021, 1, 1⟩, "mobile", "A", 3, 1⟩,
                ⟨⟨2021, 1, 2⟩, "tablet", "A", 5, 2⟩] : Dataset) ⟨2021, 1, 1⟩ "mobile").add
              (deviceCell ([⟨⟨2021, 1, 1⟩, "mobile", "A", 3, 1⟩,
                ⟨⟨2021, 1, 2⟩, "tablet", "A", 5, 2⟩] : Dataset) ⟨2021, 1, 1⟩ "tablet")
                = FVal.fin q)
            ∧ (sumTraffic (rowsAt (restrictDevices ([⟨⟨2021, 1, 1⟩, "mobile", "A", 3, 1⟩,
                  ⟨⟨2021, 1, 2⟩, "tablet", "A", 5, 2⟩] : Dataset)) ⟨2021, 1, 1⟩) ≠ 0 →
                ∃ q : ℚ, (((deviceCell ([⟨⟨2021, 1, 1⟩, "mobile", "A", 3, 1⟩,
                    ⟨⟨2021, 1, 2⟩, "tablet", "A", 5, 2⟩] : Dataset) ⟨2021, 1, 1⟩ "mobile").add
                  (deviceCell ([⟨⟨2021, 1, 1⟩, "mobile", "A", 3, 1⟩,
                    ⟨⟨2021, 1, 2⟩, "tablet", "A", 5, 2⟩] : Dataset) ⟨2021, 1, 1⟩ "tablet")).div
                  (deviceTotal ([⟨⟨2021, 1, 1⟩, "mobile", "A", 3, 1⟩,
                    ⟨⟨2021, 1, 2⟩, "tablet", "A", 5, 2⟩] : Dataset) ⟨2021, 1, 1⟩)).mul
                  (FVal.fin 100) = FVal.fin q))) :=
  ⟨⟨by decide, by decide, by decide⟩,
    mobile_tablet_partial_dates ([⟨⟨2021, 1, 1⟩, "mobile", "A", 3, 1⟩,
        ⟨⟨2021, 1, 2⟩, "tablet", "A", 5, 2⟩] : Dataset) ⟨2021, 1, 1⟩
      (by decide) (by decide) (by decide)⟩

/-- Counterexample for C10 as stated: a date with a mobile row and a tablet
row but zero total traffic still gets a NaN `mobile_tablet_pct` (0/0), so the
percentage is not always defined when both device types are present. -/
theorem mobile_tablet_pct_zero_traffic_counterexample :
    rowsAtDev (restrictDevices zeroTrafficTable) ⟨2021, 1, 1⟩ "mobile" ≠ []
    ∧ rowsAtDev (restrictDevices zeroTrafficTable) ⟨2021, 1, 1⟩ "tablet" ≠ []
    ∧ by_device_mobile_tablet_pct zeroTrafficTable
      = .ok [(⟨2021, 1, 1⟩, FVal.nan)] := by
  refine ⟨by decide, by decide, ?_⟩
  have hcellm : deviceCell zeroTrafficTable ⟨2021, 1, 1⟩ "mobile" = FVal.fin 0 := by
    rw [deviceCell_of_ne _ _ _ (by decide),
      show sumTraffic (rowsAtDev (restrictDevices zeroTrafficTable) ⟨2021, 1, 1⟩ "mobile") = 0
        from by decide]
    norm_num
  have hcellt : deviceCell zeroTrafficTable ⟨2021, 1, 1⟩ "tablet" = FVal.fin 0 := by
    rw [deviceCell_of_ne _ _ _ (by decide),
      show sumTraffic (rowsAtDev (restrictDevices zeroTrafficTable) ⟨2021, 1, 1⟩ "tablet") = 0
        from by decide]
    norm_num
  have htot : deviceTotal zeroTrafficTable ⟨2021, 1, 1⟩ = FVal.fin 0 := by
    rw [deviceTotal_eq,
      show sumTraffic (rowsAt (restrictDevices zeroTrafficTable) ⟨2021, 1, 1⟩) = 0
        from by decide]
    norm_num
  unfold by_device_mobile_tablet_pct by_device_mobile_tablet
  rw [if_pos (by decide : hasDeviceCol zeroTrafficTable "mobile" = true),
    if_pos (by decide : hasDeviceCol zeroTrafficTable "tablet" = true)]
  rw [show dateIndex (restrictDevices zeroTrafficTable) = [⟨2021, 1, 1⟩] from by decide]
  simp only [Except.map, List.map_cons, List.map_nil]
  rw [hcellm, hcellt, htot, FVal.fin_add]
  norm_num [FVal.div, FVal.mul]
